import Mathlib

/-
Shallow embedding of the iFusionOne orchestration core (a TypeScript/Electron
desktop shell), together with proofs settling the specification claims.

Components embedded, each translated from its source file:
  - CommandRegistry (src/src/electron/core/registry/CommandRegistry/CommandRegistry.ts,
    the typed revision): command-name validation, the pre/post middleware chain
    runner, and execute.
  - ServiceRegistry (src/src/electron/core/registry/ServiceRegistry/ServiceRegistry.ts):
    service-name validation, startService, getService, isServiceRunning, stopService.
  - TabManager (src/unnamed/part_006): closeTab and reorderTab.
  - ExtensionManager (src/unnamed/part_007, the error-taxonomy revision):
    installExtension and uninstallExtension over an explicit
    filesystem-plus-store state, with the external effect outcomes
    (copy, rollback, insert, remove) supplied as explicit inputs.

Conventions of the embedding:
  - JavaScript exceptions become Except / an Option error component; mutation of
    a shared object (the command context, the tab list) becomes explicit state
    passing, and a state mutated before an exception is still returned, matching
    the fact that a thrown JS exception does not roll back prior mutations.
  - Middleware functions and command handlers are inputs to the program, not
    part of it; they are modelled by a small effect language (append a tag to
    the shared trace, overwrite the context command field, throw) which covers
    exactly the middleware and handler shapes the claims quantify over.
  - External I/O (filesystem, sqlite, view loading) is modelled by explicit
    success/failure inputs; the state tracks the facts the claims observe
    (which extension directories exist, which manifest rows exist).
-/

namespace IFusionOne

/-! ### JavaScript string primitives used by the validators -/

/-- Characters treated as whitespace by JavaScript `String.prototype.trim` and
by the `\s` / `\S` regular-expression classes (WhiteSpace and LineTerminator). -/
def jsWhitespaceChars : List Char :=
  [' ', '\t', '\n', '\r', '\x0b', '\x0c', '\u00a0', '\u1680', '\u2000',
   '\u2001', '\u2002', '\u2003', '\u2004', '\u2005', '\u2006', '\u2007',
   '\u2008', '\u2009', '\u200a', '\u2028', '\u2029', '\u202f', '\u205f',
   '\u3000', '\ufeff']

def isJsWhitespace (c : Char) : Bool :=
  jsWhitespaceChars.contains c

/-- JavaScript `s.trim()`. -/
def jsTrim (s : String) : String :=
  ⟨((s.data.dropWhile isJsWhitespace).reverse.dropWhile isJsWhitespace).reverse⟩

def isHexDigitChar (c : Char) : Bool :=
  c.isDigit || ('a' ≤ c && c ≤ 'f') || ('A' ≤ c && c ≤ 'F')

/-- Nonempty run of decimal digits. -/
def isDigitRun (l : List Char) : Bool :=
  decide (l ≠ []) && l.all Char.isDigit

/-- ExponentPart of a StrDecimalLiteral: optional sign then nonempty digits. -/
def isExponentPart (l : List Char) : Bool :=
  match l with
  | '+' :: rest => isDigitRun rest
  | '-' :: rest => isDigitRun rest
  | _ => isDigitRun l

/-- StrUnsignedDecimalLiteral without the exponent part:
`digits ['.' digits?] | '.' digits`. -/
def isUnsignedDecNoExp (l : List Char) : Bool :=
  let intPart := l.takeWhile Char.isDigit
  match l.dropWhile Char.isDigit with
  | [] => decide (intPart ≠ [])
  | '.' :: frac =>
      frac.all Char.isDigit && (decide (intPart ≠ []) || decide (frac ≠ []))
  | _ => false

/-- Mantissa with an optional exponent introduced by the first `e`/`E`. -/
def jsIsNumericBody (l : List Char) : Bool :=
  match l.findIdx? (fun c => c == 'e' || c == 'E') with
  | none => isUnsignedDecNoExp l
  | some i => isUnsignedDecNoExp (l.take i) && isExponentPart (l.drop (i + 1))

def isInfinityOrDecimal (l : List Char) : Bool :=
  if l = ['I', 'n', 'f', 'i', 'n', 'i', 't', 'y'] then true
  else jsIsNumericBody l

/-- Whether JavaScript `Number(s)` yields a number rather than NaN, i.e.
`!isNaN(Number(s))`: after trimming, the empty string coerces to 0, and the
StringNumericLiteral grammar admits signed decimal literals, `Infinity`, and
unsigned hex/binary/octal literals. -/
def jsStringIsNumber (s : String) : Bool :=
  match (jsTrim s).data with
  | [] => true
  | '0' :: 'x' :: rest => decide (rest ≠ []) && rest.all isHexDigitChar
  | '0' :: 'X' :: rest => decide (rest ≠ []) && rest.all isHexDigitChar
  | '0' :: 'b' :: rest => decide (rest ≠ []) && rest.all (fun c => c == '0' || c == '1')
  | '0' :: 'B' :: rest => decide (rest ≠ []) && rest.all (fun c => c == '0' || c == '1')
  | '0' :: 'o' :: rest => decide (rest ≠ []) && rest.all (fun c => c.isDigit && c ≤ '7')
  | '0' :: 'O' :: rest => decide (rest ≠ []) && rest.all (fun c => c.isDigit && c ≤ '7')
  | '+' :: rest => isInfinityOrDecimal rest
  | '-' :: rest => isInfinityOrDecimal rest
  | l => isInfinityOrDecimal l

/-! ### Association-list helpers (JavaScript `Map` get/set/delete semantics) -/

/-- JavaScript `Map.prototype.get`. -/
def alGet {α : Type} : List (String × α) → String → Option α
  | [], _ => none
  | (k1, v) :: rest, k => if k1 = k then some v else alGet rest k

/-- JavaScript `Map.prototype.set`: overwrite in place, else append. -/
def alSet {α : Type} : List (String × α) → String → α → List (String × α)
  | [], k, v => [(k, v)]
  | (k1, v1) :: rest, k, v =>
      if k1 = k then (k1, v) :: rest else (k1, v1) :: alSet rest k v

/-- JavaScript `Map.prototype.delete`. -/
def alRemove {α : Type} (l : List (String × α)) (k : String) : List (String × α) :=
  l.filter (fun p => decide (p.1 ≠ k))

/-! ### CommandRegistry: command-name validation

Translated from `validateCommandName` in
src/src/electron/core/registry/CommandRegistry/CommandRegistry.ts.
The null/undefined and typeof checks cannot fire for a Lean `String` and are
noted here only; message texts that interpolate runtime values are kept
without the interpolated fragment. -/

def reservedKeywords : List String :=
  ["constructor", "__proto__", "prototype", "toString", "valueOf",
   "hasOwnProperty", "isPrototypeOf", "propertyIsEnumerable", "apply",
   "call", "bind", "length", "name", "arguments", "eval", "undefined",
   "null", "NaN", "Infinity", "globalThis", "window", "document", "alert",
   "console", "process", "require", "module", "exports"]

def isAllowedCommandChar (c : Char) : Bool :=
  c.isAlphanum || c == ':' || c == '_' || c == '-'

/-- Result is `none` when the name is accepted, `some message` for the first
validation rule violated, in source order. -/
def validateCommandName (command : String) : Option String :=
  let trimmedCommand := jsTrim command
  if trimmedCommand = "" then some "Command name cannot be empty."
  else if command = "" then some "Command name cannot be empty."
  else if command.data.contains ' ' then some "Command name cannot contain spaces."
  else if jsStringIsNumber command then some "Command name cannot be a number."
  else if 255 < command.length then some "Command name cannot exceed 255 characters."
  else if command.length < 1 then some "Command name is too short."
  else if ¬ (trimmedCommand.data.all isAllowedCommandChar) then
    some "Command name contains invalid characters."
  else if reservedKeywords.contains trimmedCommand then
    some "Command name cannot be a reserved keyword."
  else none

/-! ### CommandRegistry: middleware chain and execute

The execution context `{command, args, result?, error?}` is a shared mutable
object in the source; here the observable parts (the `command` field and the
trace the claim middlewares append to) are threaded explicitly. Middleware
functions and handlers are inputs: they are modelled by `MWEffect` programs,
covering the shapes quantified over by the claims (append a tag to the shared
trace, overwrite `context.command`, throw). -/

inductive MWEffect : Type where
  | appendTag (tag : String)
  | setCommand (c : String)
  | throwErr (msg : String)
deriving Repr, DecidableEq

/-- One middleware `(context, next) => {...}`: effects run before `next()`,
whether `next()` is invoked, effects run after `next()` returns. -/
structure MWProg : Type where
  before : List MWEffect
  callsNext : Bool
  after : List MWEffect
deriving Repr, DecidableEq

/-- A command handler: its body effects and its return value. -/
structure HandlerProg : Type where
  effects : List MWEffect
  retVal : String
deriving Repr, DecidableEq

/-- Errors of the CommandRegistry, mirroring the error classes used by the
source: InvalidArgumentError, CommandError, MiddlewareError (with optional
cause), ExecutionError (with cause), and a raw error thrown by user code. -/
inductive CRErr : Type where
  | invalidArgument (msg : String) (cause : String)
  | command (msg : String)
  | middleware (msg : String) (cause : Option CRErr)
  | execution (msg : String) (cause : CRErr)
  | user (msg : String)

/-- Observable execution context state: the `command` field plus the shared
trace that the claims' middlewares and handlers append tags to. -/
structure ExecState : Type where
  ctxCommand : String
  trace : List String
deriving Repr, DecidableEq

def runEffect (st : ExecState) : MWEffect → ExecState × Option CRErr
  | .appendTag t => ({ st with trace := st.trace ++ [t] }, none)
  | .setCommand c => ({ st with ctxCommand := c }, none)
  | .throwErr m => (st, some (.user m))

def runEffects : ExecState → List MWEffect → ExecState × Option CRErr
  | st, [] => (st, none)
  | st, e :: rest =>
      match runEffect st e with
      | (st1, none) => runEffects st1 rest
      | (st1, some err) => (st1, some err)

/-- Translated from `CommandRegistry.runMiddleware`: each frame runs one
middleware; any error crossing a frame (one thrown by the middleware body, one
propagating out of its `await next()`, or the chain-interrupted error raised
when the middleware returned without calling `next()`) is caught by that
frame and wrapped as a MiddlewareError with the original as cause.
Quotation marks of the source message around next() are elided. -/
def runMiddleware : List MWProg → ExecState → ExecState × Option CRErr
  | [], st => (st, none)
  | m :: rest, st =>
      match runEffects st m.before with
      | (st1, some e) => (st1, some (.middleware "Middleware Error." (some e)))
      | (st1, none) =>
          if m.callsNext then
            match runMiddleware rest st1 with
            | (st2, some e) => (st2, some (.middleware "Middleware Error." (some e)))
            | (st2, none) =>
                match runEffects st2 m.after with
                | (st3, some e) => (st3, some (.middleware "Middleware Error." (some e)))
                | (st3, none) => (st3, none)
          else
            (st1, some (.middleware "Middleware Error."
              (some (.middleware "Middleware chain interrupted. next() was not called." none))))

/-- Registry state: `commands`, `preMiddleware`, `postMiddleware`. -/
structure CommandRegistry : Type where
  commands : List (String × HandlerProg)
  preMiddleware : List MWProg
  postMiddleware : List MWProg

/-- The catch block of `execute`: a MiddlewareError is rethrown as is, any
other error is wrapped in an ExecutionError. -/
def wrapExecuteErr (command : String) (e : CRErr) : CRErr :=
  match e with
  | .middleware m c => .middleware m c
  | _ => .execution ("Failed to execute the command " ++ command) e

/-- Translated from `CommandRegistry.execute`: validate the name; look up the
handler; run the pre-chain; re-check that middleware did not change
`context.command`; run the handler; on success run the post-chain, whose
failures are logged and swallowed; return `context.result`. -/
def execute (reg : CommandRegistry) (command : String) : ExecState × Except CRErr String :=
  let st0 : ExecState := { ctxCommand := command, trace := [] }
  match validateCommandName command with
  | some vmsg => (st0, .error (.invalidArgument "Invalid command name." vmsg))
  | none =>
    match alGet reg.commands command with
    | none => (st0, .error (.command ("No handler registered for command: " ++ command)))
    | some h =>
      match runMiddleware reg.preMiddleware st0 with
      | (st1, some e) => (st1, .error (wrapExecuteErr command e))
      | (st1, none) =>
        if st1.ctxCommand ≠ command then
          (st1, .error (wrapExecuteErr command
            (.middleware (command ++ " Middleware cannot modify the command name.") none)))
        else
          match runEffects st1 h.effects with
          | (st2, some e) => (st2, .error (wrapExecuteErr command e))
          | (st2, none) =>
              let (st3, _postErr) := runMiddleware reg.postMiddleware st2
              (st3, .ok h.retVal)

/-- A middleware that appends its tag to the shared trace and then calls
`next()`, the shape quantified over by the middleware-ordering claim. -/
def tagMW (t : String) : MWProg :=
  { before := [.appendTag t], callsNext := true, after := [] }

/-- A handler that appends the tag "handler" to the shared trace and returns. -/
def tagHandler (r : String) : HandlerProg :=
  { effects := [.appendTag "handler"], retVal := r }

/-! ### ServiceRegistry

Translated from src/src/electron/core/registry/ServiceRegistry/ServiceRegistry.ts
(the revision at that path, whose behavior the unit tests in
src/__tests__/ServiceRegistry.test.ts pin down). All of its failures are plain
`Error` objects carrying a message, so the error type is a single
message-carrying constructor; a validation failure is reported as
"Invalid service name: " + error, where string-converting the wrapped Error
prepends "Error: ".

A registered service class is characterised by the behavior of the instances
it constructs: whether `start()` throws and whether `stop()` throws (and with
which message). An instance is a fresh allocation token paired with its class,
so that reference identity of instances is observable. Constructor arguments
only ever reach the registry through `JSON.stringify(args)`, so operations
take the serialized `argsKey` directly; two calls with identical arguments
have the same key. -/

inductive SRErr : Type where
  | err (msg : String)
deriving Repr, DecidableEq

structure ServiceClass : Type where
  startFails : Option String
  stopFails : Option String
deriving Repr, DecidableEq

structure ServiceInstance : Type where
  token : Nat
  cls : ServiceClass
deriving Repr, DecidableEq

/-- Registry state: `services : name -> argsKey -> instance`,
`factories : name -> class`, plus the allocator for instance identity. -/
structure SRState : Type where
  services : List (String × List (String × ServiceInstance))
  factories : List (String × ServiceClass)
  nextToken : Nat
deriving Repr, DecidableEq

def isAllowedServiceChar (c : Char) : Bool :=
  c.isAlphanum || c == '-' || c == '_'

def isDashUnderscoreChar (c : Char) : Bool :=
  c == '-' || c == '_'

/-- The regex `^[-_]|[-_]$`. -/
def startsOrEndsWithDashUnderscore (l : List Char) : Bool :=
  match l.head?, l.getLast? with
  | some a, some b => isDashUnderscoreChar a || isDashUnderscoreChar b
  | _, _ => false

/-- The regex `[-_]{2,}`: two adjacent hyphen/underscore characters. -/
def hasConsecutiveDashUnderscore : List Char → Bool
  | [] => false
  | [_] => false
  | a :: b :: rest =>
      (isDashUnderscoreChar a && isDashUnderscoreChar b)
        || hasConsecutiveDashUnderscore (b :: rest)

/-- Translated from `ServiceRegistry.validateServiceName`; `none` means the
name is accepted, `some message` is the first rule violated, in source order.
The null/undefined and typeof checks cannot fire for a Lean `String`. -/
def validateServiceName (name : String) : Option String :=
  let trimmedName := jsTrim name
  if trimmedName.length = 0 then some "Service name cannot be an empty string."
  else if ¬ (name.data.any (fun c => ¬ isJsWhitespace c)) then
    some "Service name cannot contain only whitespace characters."
  else if 255 < trimmedName.length then
    some "Service name is too long. Maximum allowed length is 255 characters."
  else if trimmedName.length < 1 then
    some "Service name is too short. Minimum allowed length is 1 characters."
  else if ¬ (trimmedName.data.all isAllowedServiceChar) then
    some "Service name contains invalid characters."
  else if decide (trimmedName.data ≠ []) && trimmedName.data.all Char.isDigit then
    some "Service name cannot be purely numeric."
  else if startsOrEndsWithDashUnderscore trimmedName.data then
    some "Service name cannot start or end with a hyphen or underscore."
  else if hasConsecutiveDashUnderscore trimmedName.data then
    some "Service name cannot contain consecutive hyphens or underscores."
  else none

/-- The message produced by `"Invalid service name: " + error`. -/
def invalidServiceNameMsg (vmsg : String) : SRErr :=
  .err ("Invalid service name: Error: " ++ vmsg)

/-- Presence lookup `services.get(name)?.get(argsKey)`. -/
def srLookup (st : SRState) (name argsKey : String) : Option ServiceInstance :=
  match alGet st.services name with
  | none => none
  | some instances => alGet instances argsKey

/-- Store an instance: create the inner map for `name` when missing, then
`set(argsKey, instance)`. -/
def srStore (st : SRState) (name argsKey : String) (inst : ServiceInstance) : SRState :=
  let m := (alGet st.services name).getD []
  { st with services := alSet st.services name (alSet m argsKey inst) }

/-- Translated from `ServiceRegistry.startService`: validate the name; if an
instance already exists under `(name, argsKey)` return it unchanged (warm
start); otherwise require a factory, construct and store the instance, then
call its `start()` method — a throw from `start()` propagates to the caller
as-is, after the instance was already stored. -/
def startService (st : SRState) (name argsKey : String) :
    SRState × Except SRErr ServiceInstance :=
  match validateServiceName name with
  | some vmsg => (st, .error (invalidServiceNameMsg vmsg))
  | none =>
    match srLookup st name argsKey with
    | some inst => (st, .ok inst)
    | none =>
      match alGet st.factories name with
      | none => (st, .error (.err ("Service " ++ name ++ " is not registered.")))
      | some cls =>
        let inst : ServiceInstance := { token := st.nextToken, cls := cls }
        let st1 := srStore { st with nextToken := st.nextToken + 1 } name argsKey inst
        match cls.startFails with
        | some m => (st1, .error (.err m))
        | none => (st1, .ok inst)

/-- Translated from `ServiceRegistry.getService`: return the existing instance
for `(name, argsKey)` when present, else delegate to `startService`. -/
def getService (st : SRState) (name argsKey : String) :
    SRState × Except SRErr ServiceInstance :=
  match validateServiceName name with
  | some vmsg => (st, .error (invalidServiceNameMsg vmsg))
  | none =>
    match srLookup st name argsKey with
    | some inst => (st, .ok inst)
    | none => startService st name argsKey

/-- Translated from `ServiceRegistry.isServiceRunning`: validate, then a pure
presence check of the computed key. -/
def isServiceRunning (st : SRState) (name argsKey : String) : Except SRErr Bool :=
  match validateServiceName name with
  | some vmsg => .error (invalidServiceNameMsg vmsg)
  | none =>
    match alGet st.services name with
    | none => .ok false
    | some instances => .ok (alGet instances argsKey).isSome

/-- The `for` loop of `stopService` calls `instance.stop()` on each instance in
insertion order without catching: the first instance whose `stop()` throws
aborts the loop with that error. -/
def firstStopFailure : List (String × ServiceInstance) → Option String
  | [] => none
  | (_, inst) :: rest =>
      match inst.cls.stopFails with
      | some m => some m
      | none => firstStopFailure rest

/-- Translated from `ServiceRegistry.stopService`: validate the name; when no
instance map exists for the name, warn and return `false` (factories are never
consulted); otherwise call `stop()` on every instance — a throwing `stop()`
propagates immediately, before the instance map is deleted — then delete all
instances of the name and return `true`. -/
def stopService (st : SRState) (name : String) : SRState × Except SRErr Bool :=
  match validateServiceName name with
  | some vmsg => (st, .error (invalidServiceNameMsg vmsg))
  | none =>
    match alGet st.services name with
    | none => (st, .ok false)
    | some instances =>
      match firstStopFailure instances with
      | some m => (st, .error (.err m))
      | none => ({ st with services := alRemove st.services name }, .ok true)

/-- Number of running instances recorded for a service name. -/
def countInstances (st : SRState) (name : String) : Nat :=
  ((alGet st.services name).getD []).length

/-! ### TabManager

Translated from `TabManager` in src/unnamed/part_006. A tab record is
`{id, title, extensionUniqueId, view}`; the view resource and its
visibility/teardown calls (`removeChildView`, `webContents.close`,
`setVisible`) are external window-host effects with no bearing on the tab
list or the active-tab pointer, so the state tracks the tab list and the
active tab. Errors are TabError ("tab not found") and InvalidArgumentError. -/

structure Tab : Type where
  id : String
  title : String
  extensionUniqueId : String
deriving Repr, DecidableEq

structure TabManagerState : Type where
  tabs : List Tab
  activeTab : Option Tab
deriving Repr, DecidableEq

inductive TabErr : Type where
  | tabNotFound (tabId : String)
  | invalidArgument (msg : String)
deriving Repr, DecidableEq

/-- Translated from `TabManager.getTabIndex`: index of the tab with the given
identity in the current tab list, `-1` when absent or when no tab is given. -/
def getTabIndex (tabs : List Tab) : Option Tab → Int
  | some t =>
      match tabs.findIdx? (fun x => x.id == t.id) with
      | some j => (j : Int)
      | none => -1
  | none => -1

/-- Translated from `TabManager.closeTab`: fail "tab not found" for an unknown
id; splice the tab out (its view is detached and closed — an external
effect); when the closed tab was the active one, promote by the source
policy: no tabs left — none; closed index now past the end — the new last
tab; otherwise the tab now occupying the closed index. Returns the recomputed
active tab index. -/
def closeTab (st : TabManagerState) (tabId : String) : TabManagerState × Except TabErr Int :=
  match st.tabs.findIdx? (fun t => t.id == tabId) with
  | none => (st, .error (.tabNotFound tabId))
  | some tabIndex =>
    let tabs1 := st.tabs.eraseIdx tabIndex
    let active1 : Option Tab :=
      match st.activeTab with
      | some a =>
          if a.id = tabId then
            if tabs1.length = 0 then none
            else if tabs1.length ≤ tabIndex then tabs1.getLast?
            else tabs1.get? tabIndex
          else some a
      | none => none
    ({ tabs := tabs1, activeTab := active1 }, .ok (getTabIndex tabs1 active1))

/-- Translated from `TabManager.reorderTab`: bounds-check both indices against
the current tab count, failing with InvalidArgumentError out of bounds;
otherwise remove the tab at `fromIndex` and reinsert it at `toIndex` (a
stable move), returning the new ordering and the recomputed active index.
The inner `none` branch is unreachable: the guard guarantees `fromIndex` is
in bounds. -/
def reorderTab (st : TabManagerState) (fromIndex toIndex : Int) :
    TabManagerState × Except TabErr (List Tab × Int) :=
  if fromIndex < 0 ∨ toIndex < 0 ∨ (st.tabs.length : Int) ≤ fromIndex
      ∨ (st.tabs.length : Int) ≤ toIndex then
    (st, .error (.invalidArgument "Invalid tab indices for reordering."))
  else
    match st.tabs.get? fromIndex.toNat with
    | none => (st, .error (.invalidArgument "Invalid tab indices for reordering."))
    | some movedTab =>
      let tabs1 := (st.tabs.eraseIdx fromIndex.toNat).insertIdx toIndex.toNat movedTab
      ({ st with tabs := tabs1 }, .ok (tabs1, getTabIndex tabs1 st.activeTab))

/-! ### ExtensionManager

Translated from `ExtensionManager` in src/unnamed/part_007 (the error-taxonomy
revision): `installExtension` and `uninstallExtension`. The state tracks the
facts the claims observe: which extension directories exist under the
extensions root (directories are named by `uniqueId`, so they are tracked by
that key) and which manifest rows exist in the `extensions` table. The
outcomes of the external filesystem and sqlite steps (directory access,
mkdir, recursive copy, rollback removal, row insert/delete, transaction
rollback) are supplied as explicit inputs, one per step, mirroring the
try/catch structure of the source. The per-id mutex and the global write lock
serialize operations, so a sequence of operations is modelled as sequential
applications. Error values carry the error class of the source throw site. -/

structure ExtManifest : Type where
  name : String
  version : String
  entry : String
  permissions : List String
  developer : String
  category : String
  description : String
deriving Repr, DecidableEq

inductive ExtErr : Type where
  | schemaValidation
  | fileSystem
  | criticalFileSystem
  | database
  | criticalDatabase
  | extension
  | repository
deriving Repr, DecidableEq

/-- Filesystem-plus-store state: the set of extension directories present on
disk (tracked by `uniqueId`) and the rows of the `extensions` table. -/
structure ExtState : Type where
  dirs : List String
  rows : List (String × ExtManifest)
deriving Repr, DecidableEq

/-- The `uniqueId` computed by `validateManifestFile`:
`uuidv5(developer + ":" + name, NAMESPACE)`. The uuid library's v5 hash at the
fixed namespace is an external pure function of its input string, abstracted
as the parameter `idf`; every property proved below holds for every choice of
`idf`, using only that it is a function. -/
def deriveUniqueId (idf : String → String) (m : ExtManifest) : String :=
  idf (m.developer ++ ":" ++ m.name)

/-- Outcomes of the external steps of one `installExtension` run:
`manifestErr` is the failure thrown by `validateManifestFile` when it fails
(a SchemaValidationError or FileSystemError), `repoOk` covers
`ensureRepositoryReady`, `accessErr` a non-ENOENT failure of the destination
existence probe, and the rest cover mkdir, the recursive copy, the rollback
removal after a failed copy, the manifest-row insert, and the transaction
rollback after a failed insert. -/
structure InstallEnv : Type where
  manifestErr : Option ExtErr
  repoOk : Bool
  accessErr : Bool
  mkdirOk : Bool
  copyOk : Bool
  copyRollbackOk : Bool
  insertOk : Bool
  insertRollbackOk : Bool
deriving Repr, DecidableEq

/-- Outcomes of the external steps of one `uninstallExtension` run:
`ensureRepositoryReady`, the recursive directory removal, the row delete, and
the transaction rollback after a failed delete. -/
structure UninstallEnv : Type where
  repoOk : Bool
  rmOk : Bool
  deleteOk : Bool
  deleteRollbackOk : Bool
deriving Repr, DecidableEq

/-- Translated from `ExtensionManager.installExtension`: validate the manifest
(propagating its failure); ensure the store is ready (RepositoryError); fail
ExtensionError when the destination directory already exists, or
FileSystemError when the existence probe fails with a non-ENOENT error;
create the destination directory (FileSystemError on failure); copy the
source tree — on copy failure remove the partially-copied destination,
failing CriticalFileSystemError when that rollback itself fails and an
ordinary FileSystemError when it succeeds; insert the manifest row inside a
transaction — on insert failure roll the transaction back, failing
CriticalDatabaseError when the rollback fails and an ordinary DatabaseError
when it succeeds (the copied directory is left in place on this path);
return the name and uniqueId on full success. -/
def installExtension (idf : String → String) (env : InstallEnv) (st : ExtState)
    (m : ExtManifest) : ExtState × Except ExtErr (String × String) :=
  match env.manifestErr with
  | some e => (st, .error e)
  | none =>
    let uniqueId := deriveUniqueId idf m
    if env.repoOk = false then (st, .error .repository)
    else if uniqueId ∈ st.dirs then (st, .error .extension)
    else if env.accessErr = true then (st, .error .fileSystem)
    else if env.mkdirOk = false then (st, .error .fileSystem)
    else
      let st1 : ExtState := { st with dirs := uniqueId :: st.dirs }
      if env.copyOk = false then
        if env.copyRollbackOk = true then
          ({ st1 with dirs := st1.dirs.filter (fun d => decide (d ≠ uniqueId)) },
           .error .fileSystem)
        else (st1, .error .criticalFileSystem)
      else if env.insertOk = false then
        if env.insertRollbackOk = true then (st1, .error .database)
        else (st1, .error .criticalDatabase)
      else ({ st1 with rows := (uniqueId, m) :: st1.rows }, .ok (m.name, uniqueId))

/-- Translated from `ExtensionManager.uninstallExtension`: ensure the store is
ready (RepositoryError); remove the extension directory recursively with
`force: true` (succeeds even when the directory is absent; FileSystemError on
failure, leaving the row intact); delete the row inside a transaction — on
delete failure roll back, failing CriticalDatabaseError when the rollback
fails and an ordinary DatabaseError when it succeeds (the directory removal
is not undone on this path); return the uniqueId. -/
def uninstallExtension (env : UninstallEnv) (st : ExtState) (uniqueId : String) :
    ExtState × Except ExtErr String :=
  if env.repoOk = false then (st, .error .repository)
  else if env.rmOk = false then (st, .error .fileSystem)
  else
    let st1 : ExtState := { st with dirs := st.dirs.filter (fun d => decide (d ≠ uniqueId)) }
    if env.deleteOk = false then
      if env.deleteRollbackOk = true then (st1, .error .database)
      else (st1, .error .criticalDatabase)
    else ({ st1 with rows := st1.rows.filter (fun p => decide (p.1 ≠ uniqueId)) },
          .ok uniqueId)

/-- Whether a manifest row for `uniqueId` exists in the `extensions` table. -/
def hasRowB (st : ExtState) (uniqueId : String) : Bool :=
  st.rows.any (fun p => p.1 == uniqueId)

/-! ### Claim C2: the row-iff-directory invariant over operation sequences -/

/-- A manifest row for `uniqueId` exists if and only if the corresponding
extension directory exists on disk. -/
def extConsistent (st : ExtState) : Prop :=
  ∀ uniqueId : String, (∃ m, (uniqueId, m) ∈ st.rows) ↔ uniqueId ∈ st.dirs

/-- One install or uninstall operation together with its external outcomes. -/
inductive ExtOp : Type where
  | install (env : InstallEnv) (m : ExtManifest)
  | uninstall (env : UninstallEnv) (uniqueId : String)

def applyOp (idf : String → String) (st : ExtState) : ExtOp → ExtState
  | .install env m => (installExtension idf env st m).1
  | .uninstall env uniqueId => (uninstallExtension env st uniqueId).1

def applySeq (idf : String → String) (st : ExtState) (ops : List ExtOp) : ExtState :=
  ops.foldl (applyOp idf) st

/-- The operations whose database write does not fail after a successful
filesystem mutation: an install whose failed copy rolls back successfully and
whose successful copy is followed by a successful insert, and an uninstall
whose successful directory removal is followed by a successful row delete. -/
def opSafe : ExtOp → Prop
  | .install env _ =>
      (env.copyOk = false → env.copyRollbackOk = true)
        ∧ (env.copyOk = true → env.insertOk = true)
  | .uninstall env _ => env.rmOk = true → env.deleteOk = true

/-! ### Claim theorems, counterexamples, and witnesses -/
theorem alGet_alSet_same {α : Type} (l : List (String × α)) (k : String) (v : α) :
    alGet (alSet l k v) k = some v := by
  induction l with
  | nil => simp [alGet, alSet]
  | cons hd tl ih =>
      obtain ⟨k1, v1⟩ := hd
      by_cases h : k1 = k
      · simp [alGet, alSet, h]
      · simp [alGet, alSet, h, ih]

/-! ### Claims C3 and C4: middleware ordering and the command-name guard -/

/-- C3: for every registered command whose handler appends the tag "handler"
to the shared trace, with pre-middlewares appending tags `a` then `b` and
calling next, and post-middlewares appending tags `c` then `d` and calling
next, a successful execute produces exactly the trace `[a, b, "handler", c, d]`
in that order with no repetitions, and returns the handler result. -/
theorem C3_middleware_ordering (cmds : List (String × HandlerProg))
    (name a b c d r : String)
    (hval : validateCommandName name = none)
    (hreg : alGet cmds name = some (tagHandler r)) :
    execute { commands := cmds, preMiddleware := [tagMW a, tagMW b],
              postMiddleware := [tagMW c, tagMW d] } name
      = ({ ctxCommand := name, trace := [a, b, "handler", c, d] }, .ok r) := by
  simp [execute, hval, hreg, tagMW, tagHandler, runMiddleware, runEffects, runEffect]

/-- C3 witness: the theorem applied at the concrete command "cmd:hello". -/
theorem C3_witness :
    execute { commands := [("cmd:hello", tagHandler "ok")],
              preMiddleware := [tagMW "A", tagMW "B"],
              postMiddleware := [tagMW "C", tagMW "D"] } "cmd:hello"
      = ({ ctxCommand := "cmd:hello", trace := ["A", "B", "handler", "C", "D"] }, .ok "ok") :=
  C3_middleware_ordering [("cmd:hello", tagHandler "ok")] "cmd:hello" "A" "B" "C" "D" "ok"
    (by decide) (by simp [alGet])

/-- C4: for every execute of a registered command, if the pre-middleware chain
completes and has changed the context command field (so that afterwards
`context.command` differs from the invoked name), execute fails with the
middleware failure stating the command name cannot be modified, and the
handler is never invoked: the returned state is exactly the state left by the
pre-chain, so no handler effect ever ran. -/
theorem C4_command_name_guard (cmds : List (String × HandlerProg))
    (pre post : List MWProg) (name : String) (h : HandlerProg) (st1 : ExecState)
    (hval : validateCommandName name = none)
    (hreg : alGet cmds name = some h)
    (hpre : runMiddleware pre { ctxCommand := name, trace := [] } = (st1, none))
    (hmut : st1.ctxCommand ≠ name) :
    execute { commands := cmds, preMiddleware := pre, postMiddleware := post } name
      = (st1, .error (.middleware (name ++ " Middleware cannot modify the command name.") none)) := by
  simp [execute, hval, hreg, hpre, hmut, wrapExecuteErr]

/-- C4 witness: a pre-middleware that overwrites the command field to "evil"
makes execute fail with the name-mutation middleware failure, and the
handler tag never reaches the trace. -/
theorem C4_witness :
    execute { commands := [("cmd:hello", tagHandler "ok")],
              preMiddleware := [{ before := [.setCommand "evil"], callsNext := true, after := [] }],
              postMiddleware := [] } "cmd:hello"
      = ({ ctxCommand := "evil", trace := [] },
         .error (.middleware ("cmd:hello" ++ " Middleware cannot modify the command name.") none)) :=
  C4_command_name_guard [("cmd:hello", tagHandler "ok")]
    [{ before := [.setCommand "evil"], callsNext := true, after := [] }] []
    "cmd:hello" (tagHandler "ok") { ctxCommand := "evil", trace := [] }
    (by decide) (by simp [alGet]) (by simp [runMiddleware, runEffects, runEffect]) (by decide)

theorem srLookup_srStore_same (st : SRState) (name argsKey : String)
    (inst : ServiceInstance) :
    srLookup (srStore st name argsKey inst) name argsKey = some inst := by
  simp [srLookup, srStore, alGet_alSet_same]

/-! ### Claims C5, C6, C10: ServiceRegistry behavior -/

theorem isServiceRunning_of_lookup (st : SRState) (name argsKey : String)
    (inst : ServiceInstance)
    (hv : validateServiceName name = none)
    (h : srLookup st name argsKey = some inst) :
    isServiceRunning st name argsKey = .ok true := by
  rcases hx : alGet st.services name with _ | l
  · simp [srLookup, hx] at h
  · have h2 : alGet l argsKey = some inst := by simpa [srLookup, hx] using h
    simp [isServiceRunning, hv, hx, h2]

/-- C5 counterexample. The claim predicts that `stopService` (i) fails with a
"not registered" failure when no factory exists for the name, and (iii) on a
failing instance stop collects the failed key without aborting, clears all
instances regardless, and returns a stopped-count result. Against the source:
(i) with no factory and no instances, `stopService "svc"` returns the plain
boolean `false` instead of failing; (iii) with a factory and two instances
whose first `stop()` throws, the raw stop error propagates, the remaining
stop is never attempted, and the registry state is returned unchanged — the
instances are not cleared and no count result is produced. -/
theorem C5_counterexample :
    stopService ⟨[], [], 0⟩ "svc" = (⟨[], [], 0⟩, .ok false) ∧
    stopService ⟨[("svc", [("[]", ⟨0, ⟨none, some "Service failed to stop"⟩⟩),
                           ("[1]", ⟨1, ⟨none, none⟩⟩)])],
                 [("svc", ⟨none, some "Service failed to stop"⟩)], 2⟩ "svc"
      = (⟨[("svc", [("[]", ⟨0, ⟨none, some "Service failed to stop"⟩⟩),
                    ("[1]", ⟨1, ⟨none, none⟩⟩)])],
          [("svc", ⟨none, some "Service failed to stop"⟩)], 2⟩,
         .error (.err "Service failed to stop")) := by
  constructor
  · rfl
  · rfl

/-- C5 as amended: for every valid service name, `stopService` never consults
the factories: it returns `false` when no instance map exists for the name
(whether or not a factory is registered); otherwise it stops the instances in
order — when every `stop()` succeeds it deletes the instance map and returns
`true`, and when some `stop()` throws, the first such error propagates as-is,
aborting the remaining stops and leaving the registry state unchanged. -/
theorem C5_stop_service_amended (st : SRState) (name : String)
    (hv : validateServiceName name = none) :
    (alGet st.services name = none → stopService st name = (st, .ok false)) ∧
    (∀ instances, alGet st.services name = some instances →
      (firstStopFailure instances = none →
        stopService st name = ({ st with services := alRemove st.services name }, .ok true)) ∧
      (∀ m, firstStopFailure instances = some m →
        stopService st name = (st, .error (.err m)))) := by
  refine ⟨fun hnone => ?_, fun instances hsome => ⟨fun hok => ?_, fun m hfail => ?_⟩⟩
  · simp [stopService, hv, hnone]
  · simp [stopService, hv, hsome, hok]
  · simp [stopService, hv, hsome, hfail]

/-- C5 witness: the amended theorem applied at two concrete registries, one
with no instances (returns `false`) and one whose single instance stops
cleanly (instances cleared, returns `true`). -/
theorem C5_witness :
    stopService ⟨[], [], 0⟩ "other" = (⟨[], [], 0⟩, .ok false) ∧
    stopService ⟨[("svc", [("[]", ⟨0, ⟨none, none⟩⟩)])], [("svc", ⟨none, none⟩)], 1⟩ "svc"
      = (⟨[], [("svc", ⟨none, none⟩)], 1⟩, .ok true) :=
  ⟨(C5_stop_service_amended ⟨[], [], 0⟩ "other" (by decide)).1 rfl,
   (((C5_stop_service_amended ⟨[("svc", [("[]", ⟨0, ⟨none, none⟩⟩)])],
        [("svc", ⟨none, none⟩)], 1⟩ "svc" (by decide)).2
      [("[]", ⟨0, ⟨none, none⟩⟩)] rfl).1 rfl).trans (by rfl)⟩

/-- C6: warm start is idempotent. Whenever `startService` succeeds and returns
an instance, calling it again with the same name and the same serialized
arguments returns the very same instance with the registry state unchanged,
so the number of running instances for that service does not increase. -/
theorem C6_warm_start_idempotent (st st1 : SRState) (name argsKey : String)
    (inst : ServiceInstance)
    (h : startService st name argsKey = (st1, .ok inst)) :
    startService st1 name argsKey = (st1, .ok inst) ∧
    countInstances (startService st1 name argsKey).1 name = countInstances st1 name := by
  rcases hv : validateServiceName name with _ | vmsg
  case some => simp [startService, hv] at h
  case none =>
  rcases hl : srLookup st name argsKey with _ | i
  case some =>
    have hcomp : startService st name argsKey = (st, .ok i) := by
      simp [startService, hv, hl]
    rw [hcomp] at h
    have h1 : st = st1 := congrArg Prod.fst h
    have h2 : i = inst := Except.ok.inj (congrArg Prod.snd h)
    rw [← h1, ← h2]
    exact ⟨hcomp, by rw [hcomp]⟩
  case none =>
  rcases hf : alGet st.factories name with _ | cls
  case none => simp [startService, hv, hl, hf] at h
  case some =>
  rcases hsf : cls.startFails with _ | m
  case some => simp [startService, hv, hl, hf, hsf] at h
  case none =>
    have hcomp : startService st name argsKey
        = (srStore { st with nextToken := st.nextToken + 1 } name argsKey
             ⟨st.nextToken, cls⟩, .ok ⟨st.nextToken, cls⟩) := by
      simp [startService, hv, hl, hf, hsf]
    rw [hcomp] at h
    have h1 : srStore { st with nextToken := st.nextToken + 1 } name argsKey
        ⟨st.nextToken, cls⟩ = st1 := congrArg Prod.fst h
    have h2 : (⟨st.nextToken, cls⟩ : ServiceInstance) = inst :=
      Except.ok.inj (congrArg Prod.snd h)
    rw [← h1, ← h2]
    have hs : startService (srStore { st with nextToken := st.nextToken + 1 } name argsKey
          ⟨st.nextToken, cls⟩) name argsKey
        = (srStore { st with nextToken := st.nextToken + 1 } name argsKey
            ⟨st.nextToken, cls⟩, .ok ⟨st.nextToken, cls⟩) := by
      simp [startService, hv, srLookup_srStore_same]
    exact ⟨hs, by rw [hs]⟩

/-- C6 witness: starting "svc" twice on a registry with one registered factory
returns the same instance token both times and leaves one running instance. -/
theorem C6_witness :
    startService (startService ⟨[], [("svc", ⟨none, none⟩)], 0⟩ "svc" "[]").1 "svc" "[]"
      = ((startService ⟨[], [("svc", ⟨none, none⟩)], 0⟩ "svc" "[]").1,
         .ok ⟨0, ⟨none, none⟩⟩) ∧
    countInstances (startService (startService ⟨[], [("svc", ⟨none, none⟩)], 0⟩
        "svc" "[]").1 "svc" "[]").1 "svc"
      = countInstances (startService ⟨[], [("svc", ⟨none, none⟩)], 0⟩ "svc" "[]").1 "svc" :=
  C6_warm_start_idempotent ⟨[], [("svc", ⟨none, none⟩)], 0⟩
    (startService ⟨[], [("svc", ⟨none, none⟩)], 0⟩ "svc" "[]").1 "svc" "[]"
    ⟨0, ⟨none, none⟩⟩ (by rfl)

/-- C10: `startService` stores the constructed instance before invoking its
`start()` method. When `start()` throws, the raw error propagates to the
caller unwrapped while the half-started instance remains registered: the
returned state already contains the instance, `isServiceRunning` reports
`true` for that `(name, argsKey)`, and later `startService`/`getService`
calls return (without error) the very instance whose `start()` failed. -/
theorem C10_start_failure_state (st st1 : SRState) (name argsKey : String)
    (cls : ServiceClass) (m : String)
    (hv : validateServiceName name = none)
    (hl : srLookup st name argsKey = none)
    (hf : alGet st.factories name = some cls)
    (hsf : cls.startFails = some m)
    (hst1 : st1 = srStore { st with nextToken := st.nextToken + 1 } name argsKey
        ⟨st.nextToken, cls⟩) :
    startService st name argsKey = (st1, .error (.err m)) ∧
    isServiceRunning st1 name argsKey = .ok true ∧
    startService st1 name argsKey = (st1, .ok ⟨st.nextToken, cls⟩) ∧
    getService st1 name argsKey = (st1, .ok ⟨st.nextToken, cls⟩) := by
  subst hst1
  have hwarm : srLookup (srStore { st with nextToken := st.nextToken + 1 } name argsKey
      ⟨st.nextToken, cls⟩) name argsKey = some ⟨st.nextToken, cls⟩ :=
    srLookup_srStore_same _ _ _ _
  refine ⟨?_, ?_, ?_, ?_⟩
  · simp [startService, hv, hl, hf, hsf]
  · exact isServiceRunning_of_lookup _ _ _ _ hv hwarm
  · simp [startService, hv, hwarm]
  · simp [getService, hv, hwarm]

/-- C10 witness: a service class whose `start()` throws "boom"; after the
failed start the instance is registered, running, and returned by later
start and get calls. -/
theorem C10_witness :
    startService ⟨[], [("svc", ⟨some "boom", none⟩)], 0⟩ "svc" "[]"
      = (⟨[("svc", [("[]", ⟨0, ⟨some "boom", none⟩⟩)])],
          [("svc", ⟨some "boom", none⟩)], 1⟩, .error (.err "boom")) ∧
    isServiceRunning ⟨[("svc", [("[]", ⟨0, ⟨some "boom", none⟩⟩)])],
          [("svc", ⟨some "boom", none⟩)], 1⟩ "svc" "[]" = .ok true ∧
    startService ⟨[("svc", [("[]", ⟨0, ⟨some "boom", none⟩⟩)])],
          [("svc", ⟨some "boom", none⟩)], 1⟩ "svc" "[]"
      = (⟨[("svc", [("[]", ⟨0, ⟨some "boom", none⟩⟩)])],
          [("svc", ⟨some "boom", none⟩)], 1⟩, .ok ⟨0, ⟨some "boom", none⟩⟩) ∧
    getService ⟨[("svc", [("[]", ⟨0, ⟨some "boom", none⟩⟩)])],
          [("svc", ⟨some "boom", none⟩)], 1⟩ "svc" "[]"
      = (⟨[("svc", [("[]", ⟨0, ⟨some "boom", none⟩⟩)])],
          [("svc", ⟨some "boom", none⟩)], 1⟩, .ok ⟨0, ⟨some "boom", none⟩⟩) :=
  C10_start_failure_state ⟨[], [("svc", ⟨some "boom", none⟩)], 0⟩
    ⟨[("svc", [("[]", ⟨0, ⟨some "boom", none⟩⟩)])],
      [("svc", ⟨some "boom", none⟩)], 1⟩ "svc" "[]" ⟨some "boom", none⟩ "boom"
    (by decide) rfl rfl rfl (by rfl)

/-! ### Claims C8 and C9: closeTab promotion policy and reorderTab bounds -/

/-- C8: closing an unknown tab id fails with the "tab not found" failure and
leaves the state unchanged; and when the closed tab was the active one
(found at index `i`), the new tab list is the old one with index `i` spliced
out and the new active tab is chosen by the source policy: none when no tabs
remain, else the new last tab when the closed index is now past the end,
else the tab now occupying the closed index. -/
theorem C8_close_tab_policy (st : TabManagerState) (tabId : String) :
    (st.tabs.findIdx? (fun t => t.id == tabId) = none →
      closeTab st tabId = (st, .error (.tabNotFound tabId))) ∧
    (∀ i a, st.activeTab = some a → a.id = tabId →
      st.tabs.findIdx? (fun t => t.id == tabId) = some i →
      (closeTab st tabId).1.tabs = st.tabs.eraseIdx i ∧
      (closeTab st tabId).1.activeTab =
        (if (st.tabs.eraseIdx i).length = 0 then none
         else if (st.tabs.eraseIdx i).length ≤ i then (st.tabs.eraseIdx i).getLast?
         else (st.tabs.eraseIdx i).get? i)) := by
  constructor
  · intro hnone
    simp [closeTab, hnone]
  · intro i a ha haid hidx
    simp [closeTab, hidx, ha, haid]

/-- C8 witness: tabs `[A, B, C]` with `B` active; closing `B` (the active tab
at index 1 of 3) leaves `[A, C]` and promotes the tab now at index 1 —
originally `C` — to active, with active index 1. -/
theorem C8_witness :
    (closeTab ⟨[⟨"A", "A", "e"⟩, ⟨"B", "B", "e"⟩, ⟨"C", "C", "e"⟩],
        some ⟨"B", "B", "e"⟩⟩ "B").1.tabs = [⟨"A", "A", "e"⟩, ⟨"C", "C", "e"⟩] ∧
    (closeTab ⟨[⟨"A", "A", "e"⟩, ⟨"B", "B", "e"⟩, ⟨"C", "C", "e"⟩],
        some ⟨"B", "B", "e"⟩⟩ "B").1.activeTab = some ⟨"C", "C", "e"⟩ := by
  have h := (C8_close_tab_policy
    ⟨[⟨"A", "A", "e"⟩, ⟨"B", "B", "e"⟩, ⟨"C", "C", "e"⟩], some ⟨"B", "B", "e"⟩⟩ "B").2
    1 ⟨"B", "B", "e"⟩ rfl rfl (by rfl)
  exact ⟨h.1.trans (by rfl), h.2.trans (by rfl)⟩

/-- C9: for every tab list and every pair of indices with either index
negative or at least the tab count, `reorderTab` fails with the
invalid-argument failure and returns the state unchanged, so the tab list
(order and membership) and the active tab are untouched. -/
theorem C9_reorder_bounds (st : TabManagerState) (fromIndex toIndex : Int)
    (h : fromIndex < 0 ∨ toIndex < 0 ∨ (st.tabs.length : Int) ≤ fromIndex
          ∨ (st.tabs.length : Int) ≤ toIndex) :
    reorderTab st fromIndex toIndex
      = (st, .error (.invalidArgument "Invalid tab indices for reordering.")) := by
  unfold reorderTab
  rw [if_pos h]

/-- C9 witness: on a 3-tab list, `reorderTab (-1) 0` and `reorderTab 0 5` both
fail with the invalid-argument failure and leave the state unchanged. -/
theorem C9_witness :
    reorderTab ⟨[⟨"A", "A", "e"⟩, ⟨"B", "B", "e"⟩, ⟨"C", "C", "e"⟩],
        some ⟨"A", "A", "e"⟩⟩ (-1) 0
      = (⟨[⟨"A", "A", "e"⟩, ⟨"B", "B", "e"⟩, ⟨"C", "C", "e"⟩], some ⟨"A", "A", "e"⟩⟩,
         .error (.invalidArgument "Invalid tab indices for reordering.")) ∧
    reorderTab ⟨[⟨"A", "A", "e"⟩, ⟨"B", "B", "e"⟩, ⟨"C", "C", "e"⟩],
        some ⟨"A", "A", "e"⟩⟩ 0 5
      = (⟨[⟨"A", "A", "e"⟩, ⟨"B", "B", "e"⟩, ⟨"C", "C", "e"⟩], some ⟨"A", "A", "e"⟩⟩,
         .error (.invalidArgument "Invalid tab indices for reordering.")) :=
  ⟨C9_reorder_bounds ⟨[⟨"A", "A", "e"⟩, ⟨"B", "B", "e"⟩, ⟨"C", "C", "e"⟩],
      some ⟨"A", "A", "e"⟩⟩ (-1) 0 (by decide),
   C9_reorder_bounds ⟨[⟨"A", "A", "e"⟩, ⟨"B", "B", "e"⟩, ⟨"C", "C", "e"⟩],
      some ⟨"A", "A", "e"⟩⟩ 0 5 (by decide)⟩

/-! ### Claim C1: install is atomic under copy failure -/

/-- C1: for every install of a not-yet-installed extension (no destination
directory and no manifest row for its uniqueId) that reaches the copy step,
if the directory-tree copy fails and the rollback removal succeeds, then
`installExtension` fails with an ordinary filesystem error (not the critical
variant), the destination directory does not exist afterwards, and no row
for that uniqueId exists in the extensions store. -/
theorem C1_install_atomic_under_copy_failure (idf : String → String)
    (env : InstallEnv) (st : ExtState) (m : ExtManifest)
    (h1 : env.manifestErr = none) (h2 : env.repoOk = true)
    (h3 : deriveUniqueId idf m ∉ st.dirs)
    (h4 : env.accessErr = false) (h5 : env.mkdirOk = true)
    (h6 : env.copyOk = false) (h7 : env.copyRollbackOk = true)
    (h8 : hasRowB st (deriveUniqueId idf m) = false) :
    (installExtension idf env st m).2 = .error .fileSystem ∧
    deriveUniqueId idf m ∉ (installExtension idf env st m).1.dirs ∧
    hasRowB (installExtension idf env st m).1 (deriveUniqueId idf m) = false := by
  have key : installExtension idf env st m
      = ({ st with dirs := List.filter (fun d => decide (d ≠ deriveUniqueId idf m)) st.dirs },
         .error .fileSystem) := by
    simp [installExtension, h1, h2, h3, h4, h5, h6, h7]
  refine ⟨by rw [key], ?_, ?_⟩
  · rw [key]
    simp [List.mem_filter]
  · rw [key]
    exact h8

/-- C1 witness: the theorem applied to a concrete manifest, an empty initial
state, and an environment whose copy fails with a succeeding rollback. -/
theorem C1_witness :
    (installExtension (fun s => s) ⟨none, true, false, true, false, true, true, true⟩
        ⟨[], []⟩ ⟨"Tool", "1.0.0", "index.html", [], "Acme", "Misc", "d"⟩).2
      = .error .fileSystem ∧
    deriveUniqueId (fun s => s) ⟨"Tool", "1.0.0", "index.html", [], "Acme", "Misc", "d"⟩
      ∉ (installExtension (fun s => s) ⟨none, true, false, true, false, true, true, true⟩
          ⟨[], []⟩ ⟨"Tool", "1.0.0", "index.html", [], "Acme", "Misc", "d"⟩).1.dirs ∧
    hasRowB (installExtension (fun s => s) ⟨none, true, false, true, false, true, true, true⟩
        ⟨[], []⟩ ⟨"Tool", "1.0.0", "index.html", [], "Acme", "Misc", "d"⟩).1
      (deriveUniqueId (fun s => s) ⟨"Tool", "1.0.0", "index.html", [], "Acme", "Misc", "d"⟩)
      = false :=
  C1_install_atomic_under_copy_failure (fun s => s)
    ⟨none, true, false, true, false, true, true, true⟩ ⟨[], []⟩
    ⟨"Tool", "1.0.0", "index.html", [], "Acme", "Misc", "d"⟩
    rfl rfl (by simp) rfl rfl rfl rfl rfl

theorem extConsistent_rollback (st : ExtState) (uid : String)
    (hmem : uid ∉ st.dirs) (h : extConsistent st) :
    extConsistent { st with dirs := List.filter (fun d => decide (d ≠ uid)) st.dirs } := by
  intro x
  have hx := h x
  constructor
  · intro hrow
    have hxd := hx.mp hrow
    have hxne : x ≠ uid := by
      rintro rfl
      exact hmem hxd
    exact List.mem_filter.mpr ⟨hxd, by simpa using hxne⟩
  · intro hxf
    obtain ⟨hxd, _⟩ := List.mem_filter.mp hxf
    exact hx.mpr hxd

theorem extConsistent_install_success (st : ExtState) (uid : String) (m : ExtManifest)
    (h : extConsistent st) :
    extConsistent ⟨uid :: st.dirs, (uid, m) :: st.rows⟩ := by
  intro x
  have hx := h x
  constructor
  · rintro ⟨m2, hm2⟩
    rcases List.mem_cons.mp hm2 with heq | hmem2
    · exact List.mem_cons.mpr (Or.inl (congrArg Prod.fst heq))
    · exact List.mem_cons.mpr (Or.inr (hx.mp ⟨m2, hmem2⟩))
  · intro hxd
    rcases List.mem_cons.mp hxd with rfl | hxd2
    · exact ⟨m, List.mem_cons_self _ _⟩
    · obtain ⟨m2, hm2⟩ := hx.mpr hxd2
      exact ⟨m2, List.mem_cons_of_mem _ hm2⟩

theorem extConsistent_uninstall_success (st : ExtState) (uid : String)
    (h : extConsistent st) :
    extConsistent ⟨List.filter (fun d => decide (d ≠ uid)) st.dirs,
                   List.filter (fun p => decide (p.1 ≠ uid)) st.rows⟩ := by
  intro x
  have hx := h x
  constructor
  · rintro ⟨m2, hm2⟩
    obtain ⟨hmem2, hne⟩ := List.mem_filter.mp hm2
    have hxne : x ≠ uid := by simpa using hne
    exact List.mem_filter.mpr ⟨hx.mp ⟨m2, hmem2⟩, by simpa using hxne⟩
  · intro hxf
    obtain ⟨hxd, hne⟩ := List.mem_filter.mp hxf
    have hxne : x ≠ uid := by simpa using hne
    obtain ⟨m2, hm2⟩ := hx.mpr hxd
    exact ⟨m2, List.mem_filter.mpr ⟨hm2, by simpa using hxne⟩⟩

theorem extConsistent_applyOp (idf : String → String) (st : ExtState) (op : ExtOp)
    (hst : extConsistent st) (hop : opSafe op) :
    extConsistent (applyOp idf st op) := by
  cases op with
  | install env m =>
    obtain ⟨hcr, hci⟩ := hop
    rcases hmf : env.manifestErr with _ | e
    · rcases hrepo : env.repoOk with _ | _
      · simpa [applyOp, installExtension, hmf, hrepo] using hst
      · by_cases hmem : deriveUniqueId idf m ∈ st.dirs
        · simpa [applyOp, installExtension, hmf, hrepo, hmem] using hst
        · rcases hacc : env.accessErr with _ | _
          · rcases hmk : env.mkdirOk with _ | _
            · simpa [applyOp, installExtension, hmf, hrepo, hmem, hacc, hmk] using hst
            · rcases hcopy : env.copyOk with _ | _
              · have hrb : env.copyRollbackOk = true := hcr hcopy
                have key : (installExtension idf env st m).1
                    = { st with dirs :=
                        List.filter (fun d => decide (d ≠ deriveUniqueId idf m)) st.dirs } := by
                  simp [installExtension, hmf, hrepo, hmem, hacc, hmk, hcopy, hrb]
                have hgoal := extConsistent_rollback st (deriveUniqueId idf m) hmem hst
                simpa [applyOp, key] using hgoal
              · have hins : env.insertOk = true := hci hcopy
                have key : (installExtension idf env st m).1
                    = ⟨deriveUniqueId idf m :: st.dirs, (deriveUniqueId idf m, m) :: st.rows⟩ := by
                  simp [installExtension, hmf, hrepo, hmem, hacc, hmk, hcopy, hins]
                have hgoal := extConsistent_install_success st (deriveUniqueId idf m) m hst
                simpa [applyOp, key] using hgoal
          · simpa [applyOp, installExtension, hmf, hrepo, hmem, hacc] using hst
    · simpa [applyOp, installExtension, hmf] using hst
  | uninstall env uniqueId =>
    rcases hrepo : env.repoOk with _ | _
    · simpa [applyOp, uninstallExtension, hrepo] using hst
    · rcases hrm : env.rmOk with _ | _
      · simpa [applyOp, uninstallExtension, hrepo, hrm] using hst
      · have hdel : env.deleteOk = true := hop hrm
        have key : (uninstallExtension env st uniqueId).1
            = ⟨List.filter (fun d => decide (d ≠ uniqueId)) st.dirs,
               List.filter (fun p => decide (p.1 ≠ uniqueId)) st.rows⟩ := by
          simp [uninstallExtension, hrepo, hrm, hdel]
        have hgoal := extConsistent_uninstall_success st uniqueId hst
        simpa [applyOp, key] using hgoal

/-- C2 counterexample: the claim asserts the row-iff-directory invariant for
every sequence of install/uninstall operations including their failure
paths. Starting from the empty (consistent) state, a single install whose
copy succeeds and whose manifest-row insert then fails (the transaction
rolls back cleanly, an ordinary DatabaseError) leaves the copied destination
directory in place with no row for that uniqueId: the source removes the
directory only on the copy-failure path, never on the insert-failure path,
so the invariant is violated. -/
theorem C2_counterexample :
    ¬ extConsistent (applySeq (fun s => s) ⟨[], []⟩
        [ExtOp.install ⟨none, true, false, true, true, true, false, true⟩
          ⟨"Tool", "1.0.0", "index.html", [], "Acme", "Misc", "d"⟩]) := by
  have hstate : applySeq (fun s => s) ⟨[], []⟩
      [ExtOp.install ⟨none, true, false, true, true, true, false, true⟩
        ⟨"Tool", "1.0.0", "index.html", [], "Acme", "Misc", "d"⟩]
      = ⟨["Acme:Tool"], []⟩ := by rfl
  intro h
  rw [hstate] at h
  have hmem : "Acme:Tool" ∈ (⟨["Acme:Tool"], []⟩ : ExtState).dirs := by simp
  obtain ⟨m2, hm2⟩ := (h "Acme:Tool").mpr hmem
  simp at hm2

/-- C2 as amended: the row-iff-directory invariant holds for every sequence of
install and uninstall operations in which no database write fails after a
successful filesystem mutation — every install either rolls a failed copy
back successfully and, when the copy succeeds, also inserts successfully;
and every uninstall whose directory removal succeeds also deletes the row
successfully. (A failed insert after a successful copy, a failed copy-rollback,
or a failed row delete after a successful removal can each break the
invariant, as the counterexample shows for the insert-failure path.) -/
theorem C2_invariant_amended (idf : String → String) (ops : List ExtOp)
    (st0 : ExtState) (h0 : extConsistent st0) (hops : ∀ op ∈ ops, opSafe op) :
    extConsistent (applySeq idf st0 ops) := by
  induction ops generalizing st0 with
  | nil => simpa [applySeq] using h0
  | cons op rest ih =>
    have hstep := extConsistent_applyOp idf st0 op h0 (hops op (List.mem_cons_self op rest))
    have := ih (applyOp idf st0 op) hstep (fun o ho => hops o (List.mem_cons_of_mem op ho))
    simpa [applySeq] using this

/-- C2 witness: a fully successful install followed by a fully successful
uninstall of the same extension preserves the invariant from the empty
state. -/
theorem C2_witness :
    extConsistent (applySeq (fun s => s) ⟨[], []⟩
      [ExtOp.install ⟨none, true, false, true, true, true, true, true⟩
        ⟨"Tool", "1.0.0", "index.html", [], "Acme", "Misc", "d"⟩,
       ExtOp.uninstall ⟨true, true, true, true⟩ "Acme:Tool"]) :=
  C2_invariant_amended (fun s => s)
    [ExtOp.install ⟨none, true, false, true, true, true, true, true⟩
      ⟨"Tool", "1.0.0", "index.html", [], "Acme", "Misc", "d"⟩,
     ExtOp.uninstall ⟨true, true, true, true⟩ "Acme:Tool"]
    ⟨[], []⟩ (by intro x; simp)
    (by
      intro op hop
      simp only [List.mem_cons, List.not_mem_nil, or_false] at hop
      rcases hop with rfl | rfl
      · exact ⟨fun _ => rfl, fun _ => rfl⟩
      · exact fun _ => rfl)

/-! ### Claim C7: deterministic uniqueId across reinstall -/

/-- C7: the uniqueId attached during manifest validation depends only on the
`(developer, name)` pair, for every choice of the uuid v5 hash function; in
particular installing a manifest, uninstalling it, and installing a second
manifest with the same developer and name (all steps succeeding, from the
empty state) yields the same uniqueId both times. -/
theorem C7_unique_id_deterministic (idf : String → String) (m1 m2 : ExtManifest)
    (hdev : m1.developer = m2.developer) (hname : m1.name = m2.name) :
    deriveUniqueId idf m1 = deriveUniqueId idf m2 ∧
    (installExtension idf ⟨none, true, false, true, true, true, true, true⟩ ⟨[], []⟩ m1).2
      = .ok (m1.name, deriveUniqueId idf m1) ∧
    (installExtension idf ⟨none, true, false, true, true, true, true, true⟩
        ((uninstallExtension ⟨true, true, true, true⟩
            ((installExtension idf ⟨none, true, false, true, true, true, true, true⟩
                ⟨[], []⟩ m1).1) (deriveUniqueId idf m1)).1) m2).2
      = .ok (m2.name, deriveUniqueId idf m1) := by
  have hkey : deriveUniqueId idf m1 = deriveUniqueId idf m2 := by
    unfold deriveUniqueId
    rw [hdev, hname]
  have h1 : installExtension idf ⟨none, true, false, true, true, true, true, true⟩ ⟨[], []⟩ m1
      = (⟨[deriveUniqueId idf m1], [(deriveUniqueId idf m1, m1)]⟩,
         .ok (m1.name, deriveUniqueId idf m1)) := by
    simp [installExtension]
  have h2 : uninstallExtension ⟨true, true, true, true⟩
      ⟨[deriveUniqueId idf m1], [(deriveUniqueId idf m1, m1)]⟩ (deriveUniqueId idf m1)
      = (⟨[], []⟩, .ok (deriveUniqueId idf m1)) := by
    simp [uninstallExtension]
  refine ⟨hkey, by rw [h1], ?_⟩
  rw [h1, h2, hkey]
  simp [installExtension]

/-- C7 witness: two manifests sharing `(developer, name)` but differing in
version, entry, permissions, category, and description produce the same
uniqueId across install, uninstall, reinstall. -/
theorem C7_witness :
    deriveUniqueId (fun s => s) ⟨"Tool", "1.0.0", "index.html", [], "Acme", "Misc", "d1"⟩
      = deriveUniqueId (fun s => s)
          ⟨"Tool", "2.0.0", "main.html", ["fs"], "Acme", "Utilities", "d2"⟩ ∧
    (installExtension (fun s => s) ⟨none, true, false, true, true, true, true, true⟩ ⟨[], []⟩
        ⟨"Tool", "1.0.0", "index.html", [], "Acme", "Misc", "d1"⟩).2
      = .ok ("Tool", deriveUniqueId (fun s => s)
          ⟨"Tool", "1.0.0", "index.html", [], "Acme", "Misc", "d1"⟩) ∧
    (installExtension (fun s => s) ⟨none, true, false, true, true, true, true, true⟩
        ((uninstallExtension ⟨true, true, true, true⟩
            ((installExtension (fun s => s) ⟨none, true, false, true, true, true, true, true⟩
                ⟨[], []⟩ ⟨"Tool", "1.0.0", "index.html", [], "Acme", "Misc", "d1"⟩).1)
            (deriveUniqueId (fun s => s)
              ⟨"Tool", "1.0.0", "index.html", [], "Acme", "Misc", "d1"⟩)).1)
        ⟨"Tool", "2.0.0", "main.html", ["fs"], "Acme", "Utilities", "d2"⟩).2
      = .ok ("Tool", deriveUniqueId (fun s => s)
          ⟨"Tool", "1.0.0", "index.html", [], "Acme", "Misc", "d1"⟩) :=
  C7_unique_id_deterministic (fun s => s)
    ⟨"Tool", "1.0.0", "index.html", [], "Acme", "Misc", "d1"⟩
    ⟨"Tool", "2.0.0", "main.html", ["fs"], "Acme", "Utilities", "d2"⟩ rfl rfl

end IFusionOne
